import Mathlib

/-!
Shallow embedding of `assets/js/research-filter.js` (publication type/tag
filtering on a static academic website).

DOM attribute reads (`getAttribute`) return either a string or `null`, modelled
as `Option String` with `none` for `null`.  JavaScript strict equality `===`
between two such values coincides with `Option` equality, and `String(null)` is
the string `"null"`.  Element visibility is carried as the inline
`style.display` string (`""` = default/visible, `"none"` = hidden).  The two
optional page elements (`#pub-count`, `#clear-filters`) are modelled as
`Option`-valued state components: `none` means the element is absent from the
page, in which case the script skips the corresponding side effect (and never
registers the clear-button handler).
-/

/-- Rendering of a JavaScript value (string or null) as a string, as performed
implicitly by `String.prototype.indexOf` when handed a non-string argument. -/
def jsStr : Option String → String
  | none => "null"
  | some s => s

/-- Character-list version of "needle is an initial segment of hay". -/
def leadsWith : List Char → List Char → Bool
  | [], _ => true
  | _ :: _, [] => false
  | c :: cs, d :: ds => c == d && leadsWith cs ds

/-- Character-list version of substring occurrence (JS `hay.indexOf(needle) !== -1`). -/
def occursInL (needle : List Char) : List Char → Bool
  | [] => leadsWith needle []
  | c :: rest => leadsWith needle (c :: rest) || occursInL needle rest

/-- `occursIn needle hay` models `hay.indexOf(needle) !== -1`. -/
def occursIn (needle hay : String) : Bool :=
  occursInL needle.data hay.data

/-- A publication entry element: its `data-type` and `data-tags` attributes and
its current inline `style.display` value. -/
structure Pub where
  dataType : Option String
  dataTags : Option String
  display : String
  deriving DecidableEq, Repr

/-- A filter control (a `.type-btn` or `.tag-btn` element): its `data-type` and
`data-tag` attributes and whether its class list contains `"active"`. -/
structure Btn where
  dataType : Option String
  dataTag : Option String
  active : Bool
  deriving DecidableEq, Repr

/-- The whole mutable state the script touches: the module-level selection
variables, the publication entries, the two control groups, and the two
optional elements (`none` = absent from the page; for the count element the
payload is its text content, for the clear button its `style.display`). -/
structure St where
  activeType : Option String
  activeTag : Option String
  pubs : List Pub
  typeBtns : List Btn
  tagBtns : List Btn
  countText : Option String
  clearDisp : Option String
  deriving DecidableEq, Repr

/-- The per-entry predicate computed inside `updateDisplay`:
`typeMatch = (activeType === "all" || pubType === activeType)` and
`tagMatch = (activeTag === "all" || pubTags.indexOf(activeTag) !== -1)`
where `pubTags = pub.getAttribute("data-tags") || ""`. -/
def pubVisible (aType aTag : Option String) (p : Pub) : Bool :=
  let pubTags := p.dataTags.getD ""
  let typeMatch := aType == some "all" || p.dataType == aType
  let tagMatch := aTag == some "all" || occursIn (jsStr aTag) pubTags
  typeMatch && tagMatch

/-- `updateDisplay`: show/hide every entry, count the visible ones, update the
count element's text (when present) and the clear button's visibility (when
present). -/
def updateDisplay (s : St) : St :=
  let pubs := s.pubs.map fun p =>
    if pubVisible s.activeType s.activeTag p then { p with display := "" }
    else { p with display := "none" }
  let visible := s.pubs.countP (pubVisible s.activeType s.activeTag)
  let countText := s.countText.map fun _ =>
    toString visible ++ " publication" ++ (if visible != 1 then "s" else "")
  let clearDisp := s.clearDisp.map fun _ =>
    if s.activeType != some "all" || s.activeTag != some "all" then "inline-block"
    else "none"
  { s with pubs := pubs, countText := countText, clearDisp := clearDisp }

/-- Net effect of the type/tag handlers' class updates: remove `"active"` from
every button in the group, then add it to the clicked one (identified by its
index in the node list). -/
def markActive (i : Nat) : List Btn → List Btn
  | [] => []
  | b :: bs =>
    match i with
    | 0 => { b with active := true } :: bs.map (fun c => { c with active := false })
    | i + 1 => { b with active := false } :: markActive i bs

/-- Click handler of the `i`-th `.type-btn`.  A handler only exists for a
button that exists, so an out-of-range index is a no-op. -/
def typeBtnClick (i : Nat) (s : St) : St :=
  match s.typeBtns[i]? with
  | none => s
  | some b =>
    updateDisplay { s with typeBtns := markActive i s.typeBtns, activeType := b.dataType }

/-- Click handler of the `i`-th `.tag-btn`. -/
def tagBtnClick (i : Nat) (s : St) : St :=
  match s.tagBtns[i]? with
  | none => s
  | some b =>
    updateDisplay { s with tagBtns := markActive i s.tagBtns, activeTag := b.dataTag }

/-- Click handler of a `.pub-tag` pill carrying `data-tag` value `tag`: every
`.tag-btn` gets `"active"` exactly when its `data-tag` strictly equals `tag`,
then `activeTag := tag`.  (The trailing smooth scroll touches no modelled
state.) -/
def pubTagClick (tag : Option String) (s : St) : St :=
  updateDisplay { s with
    tagBtns := s.tagBtns.map fun b => { b with active := b.dataTag == tag },
    activeTag := tag }

/-- Predicate used by the clear handler on every button of both groups:
`b.getAttribute("data-type") === "all" || b.getAttribute("data-tag") === "all"`. -/
def clearAllPred (b : Btn) : Bool :=
  b.dataType == some "all" || b.dataTag == some "all"

/-- Click handler of `#clear-filters`.  The handler is only registered when the
element exists (`if (clearBtn)`), so with the element absent a click cannot
happen and the state is unchanged. -/
def clearClick (s : St) : St :=
  match s.clearDisp with
  | none => s
  | some _ =>
    updateDisplay { s with
      activeType := some "all", activeTag := some "all",
      typeBtns := s.typeBtns.map fun b => { b with active := clearAllPred b },
      tagBtns := s.tagBtns.map fun b => { b with active := clearAllPred b } }

/-- The state of one abstract toggle: the control's `textContent` and the
adjacent block's `style.display`. -/
structure AbsToggle where
  btnText : String
  absDisplay : String
  deriving DecidableEq, Repr

/-- `window.toggleAbstract`: if the adjacent block's display is `"none"` or
`""`, show it as `"block"` and set the label to "Abstract ▲"; otherwise hide it
and set the label to "Abstract ▼". -/
def toggleAbstract (a : AbsToggle) : AbsToggle :=
  if a.absDisplay == "none" || a.absDisplay == "" then
    { btnText := "Abstract ▲", absDisplay := "block" }
  else
    { btnText := "Abstract ▼", absDisplay := "none" }

/-- One user-visible selection action on the filter UI. -/
inductive UiAction where
  | typeClick (i : Nat)
  | tagClick (i : Nat)
  | pillClick (t : Option String)
  | clear
  deriving DecidableEq, Repr

/-- Dispatch one action to its handler. -/
def step : UiAction → St → St
  | UiAction.typeClick i => typeBtnClick i
  | UiAction.tagClick i => tagBtnClick i
  | UiAction.pillClick t => pubTagClick t
  | UiAction.clear => clearClick

/-- Run a finite sequence of actions, first action first. -/
def run : List UiAction → St → St
  | [], s => s
  | a :: acts, s => run acts (step a s)

/-- Comma-splitting of a character list, for talking about the delimited tag
tokens of a `data-tags` string (the spec's examples join tags with commas). -/
def splitTokensL (cur : List Char) : List Char → List (List Char)
  | [] => [cur.reverse]
  | c :: rest =>
    if c == ',' then cur.reverse :: splitTokensL [] rest
    else splitTokensL (c :: cur) rest

/-- The delimited tag tokens of a `data-tags` string. -/
def tagTokens (s : String) : List String :=
  (splitTokensL [] s.data).map fun l => String.mk l

/-- The spec's worked scenario page: three entries, type buttons
all/paper/article, tag buttons all/ai/tiktok, both optional elements present,
the two "all" buttons initially active. -/
def demoSt : St :=
  { activeType := some "all", activeTag := some "all"
  , pubs := [ { dataType := some "paper", dataTags := some "ai,policy", display := "" }
            , { dataType := some "article", dataTags := some "policy", display := "" }
            , { dataType := some "paper", dataTags := some "tiktok", display := "" } ]
  , typeBtns := [ { dataType := some "all", dataTag := none, active := true }
                , { dataType := some "paper", dataTag := none, active := false }
                , { dataType := some "article", dataTag := none, active := false } ]
  , tagBtns := [ { dataType := none, dataTag := some "all", active := true }
               , { dataType := none, dataTag := some "ai", active := false }
               , { dataType := none, dataTag := some "tiktok", active := false } ]
  , countText := some "3 publications", clearDisp := some "none" }

/-- The same page with the count-display node absent (`countEl` is `null`). -/
def stripCount (s : St) : St :=
  { s with countText := none }

/-- The same page with the clear-filters control absent (`clearBtn` is `null`):
no clear handler is registered and the clear-visibility update is skipped. -/
def stripClear (s : St) : St :=
  { s with clearDisp := none }

/-- Exactly one button of the group carries the `"active"` class, and every
active button's relevant attribute equals the selection value `v`. -/
def OneActive (btns : List Btn) (attr : Btn → Option String) (v : Option String) : Prop :=
  btns.countP (fun b => b.active) = 1 ∧ ∀ b ∈ btns, b.active = true → attr b = v

/-- The UI invariant: exactly one type control and one tag control are marked
active, matching `activeType` and `activeTag` respectively. -/
def FilterInv (s : St) : Prop :=
  OneActive s.typeBtns Btn.dataType s.activeType ∧
  OneActive s.tagBtns Btn.dataTag s.activeTag

/-- Attribute view of a button group: the `data-type`/`data-tag` pairs.  These
are fixed by the page markup and never change under any handler. -/
def btnAttrs (btns : List Btn) : List (Option String × Option String) :=
  btns.map fun b => (b.dataType, b.dataTag)

/-- `clearAllPred` on the attribute view. -/
def attrAllPred (a : Option String × Option String) : Bool :=
  a.1 == some "all" || a.2 == some "all"

/-- Modelled from the spec: the research page markup (which filter controls
and pills the page declares) is not part of the script's source, and the spec
treats it as a fixed boundary contract ("Each type-selector control exposes
`data-type`; each tag-selector control and each inline tag pill exposes
`data-tag`", with `"all"` sentinel controls the clear handler re-activates).
This predicate is that contract for one action, stated on the (immutable)
attribute views of the two control groups: clicks target existing buttons, a
pill's tag value is carried by exactly one tag control, and each group has
exactly one control satisfying the clear handler's re-activation test, itself
carrying the `"all"` value. -/
def allowed (tc gc : List (Option String × Option String)) : UiAction → Bool
  | UiAction.typeClick i => decide (i < tc.length)
  | UiAction.tagClick i => decide (i < gc.length)
  | UiAction.pillClick t => gc.countP (fun a => a.2 == t) == 1
  | UiAction.clear =>
      (tc.countP attrAllPred == 1) &&
      tc.all (fun a => !(attrAllPred a) || (a.1 == some "all")) &&
      (gc.countP attrAllPred == 1) &&
      gc.all (fun a => !(attrAllPred a) || (a.2 == some "all"))

/-! Theorems. -/

theorem updateDisplay_activeType (s : St) : (updateDisplay s).activeType = s.activeType := rfl

theorem updateDisplay_activeTag (s : St) : (updateDisplay s).activeTag = s.activeTag := rfl

theorem updateDisplay_typeBtns (s : St) : (updateDisplay s).typeBtns = s.typeBtns := rfl

theorem updateDisplay_tagBtns (s : St) : (updateDisplay s).tagBtns = s.tagBtns := rfl

theorem updateDisplay_pubs (s : St) :
    (updateDisplay s).pubs = s.pubs.map fun p =>
      if pubVisible s.activeType s.activeTag p then { p with display := "" }
      else { p with display := "none" } := rfl

/-- `pubVisible` with string-valued selections, unfolded to the spec's
propositional form. -/
theorem pubVisible_iff (t g : String) (p : Pub) :
    pubVisible (some t) (some g) p = true ↔
      ((t = "all" ∨ p.dataType = some t) ∧
        (g = "all" ∨ occursIn g (p.dataTags.getD "") = true)) := by
  simp [pubVisible, jsStr]

/-- C1: after `updateDisplay` runs, the entry at index `i` is visible (default
display) iff (activeType is "all" or the entry's `data-type` equals it) and
(activeTag is "all" or it occurs as a substring of the entry's `data-tags`
string, an absent attribute reading as the empty string). -/
theorem updateDisplay_visible_iff (s : St) (i : Nat) (p : Pub) (t g : String)
    (hT : s.activeType = some t) (hG : s.activeTag = some g)
    (hp : s.pubs[i]? = some p) :
    ∃ q : Pub, (updateDisplay s).pubs[i]? = some q ∧
      (q.display = "" ↔
        ((t = "all" ∨ p.dataType = some t) ∧
          (g = "all" ∨ occursIn g (p.dataTags.getD "") = true))) := by
  refine ⟨if pubVisible s.activeType s.activeTag p then { p with display := "" }
      else { p with display := "none" }, ?_, ?_⟩
  · rw [updateDisplay_pubs, List.getElem?_map, hp, Option.map_some']
  · rw [hT, hG, ← pubVisible_iff t g p]
    by_cases hv : pubVisible (some t) (some g) p = true
    · simp [hv]
    · simp [hv]

theorem updateDisplay_visible_iff_witness :
    ∃ q : Pub, (updateDisplay demoSt).pubs[0]? = some q ∧
      (q.display = "" ↔
        (("all" = "all" ∨ (some "paper" : Option String) = some "all") ∧
          ("all" = "all" ∨ occursIn "all" "ai,policy" = true))) :=
  updateDisplay_visible_iff demoSt 0
    { dataType := some "paper", dataTags := some "ai,policy", display := "" }
    "all" "all" rfl rfl rfl

/-- The number of entries left visible by `updateDisplay` is the number of
entries satisfying `pubVisible`. -/
theorem visible_count_eq (s : St) :
    ((updateDisplay s).pubs.filter fun p => p.display == "").length =
      s.pubs.countP (pubVisible s.activeType s.activeTag) := by
  rw [updateDisplay_pubs, ← List.countP_eq_length_filter, List.countP_map]
  refine List.countP_congr fun p _ => ?_
  by_cases hv : pubVisible s.activeType s.activeTag p = true <;>
    simp [hv, Function.comp]

/-- The singular/plural suffix the script builds agrees with the spec's
formulation. -/
theorem suffix_plural (n : Nat) :
    " publication" ++ (if n != 1 then "s" else "") =
      if n = 1 then " publication" else " publications" := by
  by_cases h : n = 1
  · subst h; simp
  · simp [h]

/-- C2: whenever the count element exists, after `updateDisplay` its text is
the number of visible entries followed by " publication" when that number is 1
and " publications" otherwise. -/
theorem updateDisplay_count_label (s : St) (c : String) (h : s.countText = some c) :
    (updateDisplay s).countText =
      some (toString (((updateDisplay s).pubs.filter fun p => p.display == "").length) ++
        (if ((updateDisplay s).pubs.filter fun p => p.display == "").length = 1
          then " publication" else " publications")) := by
  have hct : (updateDisplay s).countText =
      s.countText.map (fun _ =>
        toString (s.pubs.countP (pubVisible s.activeType s.activeTag)) ++ " publication" ++
          (if s.pubs.countP (pubVisible s.activeType s.activeTag) != 1 then "s" else "")) := rfl
  rw [hct, h, Option.map_some', visible_count_eq s, String.append_assoc, suffix_plural]

theorem updateDisplay_count_label_witness :
    (updateDisplay demoSt).countText =
      some (toString (((updateDisplay demoSt).pubs.filter fun p => p.display == "").length) ++
        (if ((updateDisplay demoSt).pubs.filter fun p => p.display == "").length = 1
          then " publication" else " publications")) :=
  updateDisplay_count_label demoSt "3 publications" rfl

/-- C3: whenever the clear-filters control exists, after `updateDisplay` it is
shown (display not `"none"`) iff one of the two selections is not `"all"`. -/
theorem updateDisplay_clear_control (s : St) (d : String) (h : s.clearDisp = some d) :
    ∃ d', (updateDisplay s).clearDisp = some d' ∧
      (d' ≠ "none" ↔ (s.activeType ≠ some "all" ∨ s.activeTag ≠ some "all")) := by
  have hcd : (updateDisplay s).clearDisp =
      s.clearDisp.map (fun _ =>
        if s.activeType != some "all" || s.activeTag != some "all" then "inline-block"
        else "none") := rfl
  refine ⟨_, by rw [hcd, h, Option.map_some'], ?_⟩
  by_cases h1 : s.activeType = some "all" <;> by_cases h2 : s.activeTag = some "all" <;>
    simp [h1, h2]

theorem updateDisplay_clear_control_witness :
    ∃ d', (updateDisplay demoSt).clearDisp = some d' ∧
      (d' ≠ "none" ↔ (demoSt.activeType ≠ some "all" ∨ demoSt.activeTag ≠ some "all")) :=
  updateDisplay_clear_control demoSt "none" rfl

/-- C5: clicking a publication tag pill carrying `data-tag` value `x` sets
`activeTag` to `x` and leaves `activeType` and the type controls (their active
marks included) unchanged, whatever the prior state. -/
theorem pubTagClick_sets_tag_only (x : String) (s : St) :
    (pubTagClick (some x) s).activeTag = some x ∧
    (pubTagClick (some x) s).activeType = s.activeType ∧
    (pubTagClick (some x) s).typeBtns = s.typeBtns :=
  ⟨rfl, rfl, rfl⟩

/-- Counterexample to C7 as stated: start from a control labelled "Abstract ▼"
whose adjacent block is hidden with `style.display = ""`.  The block is hidden
(the first toggle will show it), yet two invocations end with
`style.display = "none"`, not the original `""`: the prior state is not
restored exactly. -/
theorem toggleAbstract_round_trip_cex :
    (({ btnText := "Abstract ▼", absDisplay := "" } : AbsToggle).absDisplay = "none" ∨
      ({ btnText := "Abstract ▼", absDisplay := "" } : AbsToggle).absDisplay = "") ∧
    toggleAbstract (toggleAbstract { btnText := "Abstract ▼", absDisplay := "" }) ≠
      { btnText := "Abstract ▼", absDisplay := "" } := by
  refine ⟨Or.inr rfl, ?_⟩
  decide

/-- C7 amended: on a control whose adjacent block is hidden (display `"none"`
or `""`), `toggleAbstract` shows the block (`"block"`) and sets the label to
"Abstract ▲"; a second invocation always yields label "Abstract ▼" and display
`"none"` — which is exactly the prior state precisely when the prior state was
that pair. -/
theorem toggleAbstract_hidden_show_restore (a : AbsToggle)
    (h : a.absDisplay = "none" ∨ a.absDisplay = "") :
    (toggleAbstract a).absDisplay = "block" ∧
    (toggleAbstract a).btnText = "Abstract ▲" ∧
    toggleAbstract (toggleAbstract a) =
      { btnText := "Abstract ▼", absDisplay := "none" } ∧
    (toggleAbstract (toggleAbstract a) = a ↔
      a = { btnText := "Abstract ▼", absDisplay := "none" }) := by
  have h1 : toggleAbstract a = { btnText := "Abstract ▲", absDisplay := "block" } := by
    rcases h with h | h <;> simp [toggleAbstract, h]
  have h2 : toggleAbstract (toggleAbstract a) =
      { btnText := "Abstract ▼", absDisplay := "none" } := by
    rw [h1]; decide
  refine ⟨by rw [h1], by rw [h1], h2, ?_⟩
  rw [h2]
  exact eq_comm

theorem toggleAbstract_hidden_show_restore_witness :
    (toggleAbstract { btnText := "Abstract ▼", absDisplay := "none" }).absDisplay = "block" ∧
    (toggleAbstract { btnText := "Abstract ▼", absDisplay := "none" }).btnText = "Abstract ▲" ∧
    toggleAbstract (toggleAbstract { btnText := "Abstract ▼", absDisplay := "none" }) =
      { btnText := "Abstract ▼", absDisplay := "none" } ∧
    (toggleAbstract (toggleAbstract { btnText := "Abstract ▼", absDisplay := "none" }) =
        { btnText := "Abstract ▼", absDisplay := "none" } ↔
      ({ btnText := "Abstract ▼", absDisplay := "none" } : AbsToggle) =
        { btnText := "Abstract ▼", absDisplay := "none" }) :=
  toggleAbstract_hidden_show_restore { btnText := "Abstract ▼", absDisplay := "none" }
    (Or.inl rfl)

/-- `updateDisplay` commutes with removing the count element: its absence
skips exactly the count-text side effect. -/
theorem updateDisplay_stripCount (s : St) :
    updateDisplay (stripCount s) = stripCount (updateDisplay s) := rfl

/-- `updateDisplay` commutes with removing the clear control: its absence
skips exactly the clear-visibility side effect. -/
theorem updateDisplay_stripClear (s : St) :
    updateDisplay (stripClear s) = stripClear (updateDisplay s) := rfl

/-- C8: with the count element absent, or with the clear control absent,
initialization's `updateDisplay` and every click handler are still total
functions (the embedding is a total Lean function, so no run can raise an
error) and produce exactly the state they produce on the element-present page
minus the side effect tied to the missing element; with the clear control
absent its handler is simply never registered, so a clear click changes
nothing. -/
theorem optional_elements_absent_safe (s : St) (i j : Nat) (t : Option String) :
    (updateDisplay (stripCount s) = stripCount (updateDisplay s) ∧
      typeBtnClick i (stripCount s) = stripCount (typeBtnClick i s) ∧
      tagBtnClick j (stripCount s) = stripCount (tagBtnClick j s) ∧
      pubTagClick t (stripCount s) = stripCount (pubTagClick t s) ∧
      clearClick (stripCount s) = stripCount (clearClick s)) ∧
    (updateDisplay (stripClear s) = stripClear (updateDisplay s) ∧
      typeBtnClick i (stripClear s) = stripClear (typeBtnClick i s) ∧
      tagBtnClick j (stripClear s) = stripClear (tagBtnClick j s) ∧
      pubTagClick t (stripClear s) = stripClear (pubTagClick t s) ∧
      clearClick (stripClear s) = stripClear s) := by
  have hty : (stripCount s).typeBtns = s.typeBtns := rfl
  have htg : (stripCount s).tagBtns = s.tagBtns := rfl
  have hty' : (stripClear s).typeBtns = s.typeBtns := rfl
  have htg' : (stripClear s).tagBtns = s.tagBtns := rfl
  have hcd : (stripCount s).clearDisp = s.clearDisp := rfl
  refine ⟨⟨updateDisplay_stripCount s, ?_, ?_, ?_, ?_⟩,
    ⟨updateDisplay_stripClear s, ?_, ?_, ?_, rfl⟩⟩
  · cases h : s.typeBtns[i]? with
    | none => simp only [typeBtnClick, hty, h]
    | some b =>
      simp only [typeBtnClick, hty, h]
      exact updateDisplay_stripCount
        { s with typeBtns := markActive i s.typeBtns, activeType := b.dataType }
  · cases h : s.tagBtns[j]? with
    | none => simp only [tagBtnClick, htg, h]
    | some b =>
      simp only [tagBtnClick, htg, h]
      exact updateDisplay_stripCount
        { s with tagBtns := markActive j s.tagBtns, activeTag := b.dataTag }
  · exact updateDisplay_stripCount
      { s with
        tagBtns := s.tagBtns.map (fun b => { b with active := b.dataTag == t }),
        activeTag := t }
  · cases h : s.clearDisp with
    | none => simp only [clearClick, hcd, h]
    | some d =>
      simp only [clearClick, hcd, h]
      exact updateDisplay_stripCount
        { s with
          activeType := some "all", activeTag := some "all",
          typeBtns := s.typeBtns.map (fun b => { b with active := clearAllPred b }),
          tagBtns := s.tagBtns.map (fun b => { b with active := clearAllPred b }),
          clearDisp := some d }
  · cases h : s.typeBtns[i]? with
    | none => simp only [typeBtnClick, hty', h]
    | some b =>
      simp only [typeBtnClick, hty', h]
      exact updateDisplay_stripClear
        { s with typeBtns := markActive i s.typeBtns, activeType := b.dataType }
  · cases h : s.tagBtns[j]? with
    | none => simp only [tagBtnClick, htg', h]
    | some b =>
      simp only [tagBtnClick, htg', h]
      exact updateDisplay_stripClear
        { s with tagBtns := markActive j s.tagBtns, activeTag := b.dataTag }
  · exact updateDisplay_stripClear
      { s with
        tagBtns := s.tagBtns.map (fun b => { b with active := b.dataTag == t }),
        activeTag := t }

/-- C9: tag matching is substring containment on the joined `data-tags` string,
not token membership: with tags string "air" and selected tag "ai", the
tag-match side of `pubVisible` succeeds (the entry stays visible) although
"ai" is not one of the comma-delimited tokens of "air". -/
theorem tag_match_substring_not_token :
    occursIn "ai" "air" = true ∧
    pubVisible (some "all") (some "ai")
      { dataType := some "paper", dataTags := some "air", display := "" } = true ∧
    ¬ "ai" ∈ tagTokens "air" := by
  decide

/-- C10: an entry whose `data-tags` attribute is absent reads as the empty tags
string, so for any selected tag that is a non-empty string other than "all" the
entry ends hidden, whatever its `data-type` (the embedding being a total
function, evaluation cannot raise an error). -/
theorem missing_tags_attribute_hidden (s : St) (i : Nat) (p : Pub) (g : String)
    (hG : s.activeTag = some g) (h1 : g ≠ "all") (h2 : g ≠ "")
    (hp : s.pubs[i]? = some p) (ht : p.dataTags = none) :
    (updateDisplay s).pubs[i]? = some { p with display := "none" } := by
  have hdata : g.data ≠ [] := by
    intro hd
    apply h2
    cases g with
    | mk l => cases hd; rfl
  obtain ⟨c, cs, hccs⟩ := List.exists_cons_of_ne_nil hdata
  have hv : pubVisible s.activeType s.activeTag p = false := by
    rw [hG]
    simp [pubVisible, ht, jsStr, h1, occursIn, hccs, occursInL, leadsWith]
  rw [updateDisplay_pubs, List.getElem?_map, hp, Option.map_some', hv]
  simp

theorem missing_tags_attribute_hidden_witness :
    (updateDisplay
      { activeType := some "all", activeTag := some "policy",
        pubs := [{ dataType := some "paper", dataTags := none, display := "" }],
        typeBtns := [], tagBtns := [], countText := none, clearDisp := none }).pubs[0]? =
      some { dataType := some "paper", dataTags := none, display := "none" } :=
  missing_tags_attribute_hidden
    { activeType := some "all", activeTag := some "policy",
      pubs := [{ dataType := some "paper", dataTags := none, display := "" }],
      typeBtns := [], tagBtns := [], countText := none, clearDisp := none }
    0 { dataType := some "paper", dataTags := none, display := "" } "policy"
    rfl (by decide) (by decide) rfl rfl

/-- With both selections `"all"` every entry matches. -/
theorem pubVisible_all_all (p : Pub) :
    pubVisible (some "all") (some "all") p = true := by
  simp [pubVisible]

/-- Explicit form of a clear click when the control exists: both selections
reset, every entry shown, both button groups re-marked from their attributes,
count text rebuilt from the full entry count, clear control hidden. -/
theorem clearClick_eq (s : St) (d : String) (h : s.clearDisp = some d) :
    clearClick s =
      { activeType := some "all", activeTag := some "all",
        pubs := s.pubs.map (fun p => { p with display := "" }),
        typeBtns := s.typeBtns.map (fun b => { b with active := clearAllPred b }),
        tagBtns := s.tagBtns.map (fun b => { b with active := clearAllPred b }),
        countText := s.countText.map (fun _ =>
          toString s.pubs.length ++ " publication" ++
            (if s.pubs.length != 1 then "s" else "")),
        clearDisp := some "none" } := by
  obtain ⟨aT, aG, ps, tb, gb, ct, cd⟩ := s
  cases h
  show updateDisplay _ = _
  have hvis : ∀ q : List Pub,
      (q.map fun p =>
        if pubVisible (some "all") (some "all") p then { p with display := "" }
        else { p with display := "none" }) = q.map (fun p => { p with display := "" }) := by
    intro q
    exact List.map_congr_left fun p _ => by simp [pubVisible_all_all]
  have hcnt : ∀ q : List Pub, q.countP (pubVisible (some "all") (some "all")) = q.length :=
    fun q => List.countP_eq_length.mpr fun p _ => pubVisible_all_all p
  simp only [updateDisplay, hvis, hcnt]
  rfl

/-- C4: when the clear-filters control exists, its click handler is idempotent
— two clicks produce exactly the state one click produces (all components:
selections, entry displays, active marks, count text, clear visibility) — and
that state has both selections `"all"`, every entry visible, and the clear
control hidden. -/
theorem clearClick_idempotent (s : St) (d : String) (h : s.clearDisp = some d) :
    clearClick (clearClick s) = clearClick s ∧
    (clearClick s).activeType = some "all" ∧
    (clearClick s).activeTag = some "all" ∧
    (∀ p ∈ (clearClick s).pubs, p.display = "") ∧
    (clearClick s).clearDisp = some "none" := by
  have h1 := clearClick_eq s d h
  have h2 := clearClick_eq (clearClick s) "none" (by rw [h1])
  refine ⟨?_, by rw [h1], by rw [h1], ?_, by rw [h1]⟩
  · rw [h2, h1]
    simp only [List.map_map, Option.map_map, List.length_map]
    rfl
  · rw [h1]
    intro p hp
    simp only [List.mem_map] at hp
    obtain ⟨q, _, rfl⟩ := hp
    rfl

theorem clearClick_idempotent_witness :
    clearClick (clearClick demoSt) = clearClick demoSt ∧
    (clearClick demoSt).activeType = some "all" ∧
    (clearClick demoSt).activeTag = some "all" ∧
    (∀ p ∈ (clearClick demoSt).pubs, p.display = "") ∧
    (clearClick demoSt).clearDisp = some "none" :=
  clearClick_idempotent demoSt "none" rfl

/-- `markActive` never changes a button's `data-` attributes. -/
theorem markActive_attrs (i : Nat) (l : List Btn) :
    btnAttrs (markActive i l) = btnAttrs l := by
  induction l generalizing i with
  | nil => simp [markActive]
  | cons b bs ih =>
    cases i with
    | zero =>
      show _ :: btnAttrs (bs.map fun c => { c with active := false }) = _ :: btnAttrs bs
      rw [btnAttrs, List.map_map]
      rfl
    | succ i =>
      show _ :: btnAttrs (markActive i bs) = _ :: btnAttrs bs
      rw [ih i]

/-- Marking an existing button leaves exactly one active button in the group. -/
theorem markActive_count (i : Nat) (l : List Btn) (h : i < l.length) :
    (markActive i l).countP (fun b => b.active) = 1 := by
  induction l generalizing i with
  | nil => simp at h
  | cons b bs ih =>
    cases i with
    | zero =>
      show List.countP _ (_ :: bs.map fun c => { c with active := false }) = 1
      rw [List.countP_cons]
      have h0 : (bs.map fun c => { c with active := false }).countP (fun b => b.active) = 0 := by
        rw [List.countP_map]
        exact List.countP_eq_zero.mpr fun c _ => by simp [Function.comp]
      simp [h0]
    | succ i =>
      have h' : i < bs.length := by simpa using h
      show List.countP _ ({ b with active := false } :: markActive i bs) = 1
      rw [List.countP_cons]
      simp [ih i h']

/-- Every active button after `markActive i` carries the attributes of the
`i`-th button of the original group. -/
theorem markActive_active (i : Nat) (l : List Btn) (b' : Btn)
    (hm : b' ∈ markActive i l) (ha : b'.active = true) :
    ∃ b, l[i]? = some b ∧ b'.dataType = b.dataType ∧ b'.dataTag = b.dataTag := by
  induction l generalizing i with
  | nil => simp [markActive] at hm
  | cons b bs ih =>
    cases i with
    | zero =>
      rw [markActive] at hm
      rcases List.mem_cons.mp hm with rfl | hm'
      · exact ⟨b, by simp, rfl, rfl⟩
      · obtain ⟨c, _, rfl⟩ := List.mem_map.mp hm'
        simp at ha
    | succ i =>
      rw [markActive] at hm
      rcases List.mem_cons.mp hm with rfl | hm'
      · simp at ha
      · obtain ⟨b0, hb0, h1, h2⟩ := ih i hm'
        exact ⟨b0, by simpa using hb0, h1, h2⟩


/-- Re-marking the active class from the attributes never changes the
attributes themselves. -/
theorem btnAttrs_map_active (f : Btn → Bool) (l : List Btn) :
    btnAttrs (l.map fun b => { b with active := f b }) = btnAttrs l := by
  rw [btnAttrs, btnAttrs, List.map_map]
  rfl

/-- Counting active buttons after re-marking from a predicate counts the
predicate on the originals. -/
theorem countP_active_map (f : Btn → Bool) (l : List Btn) :
    (l.map fun b => { b with active := f b }).countP (fun b => b.active) = l.countP f := by
  rw [List.countP_map]
  rfl

/-- No handler ever changes any button's `data-` attributes. -/
theorem step_btnAttrs (a : UiAction) (s : St) :
    btnAttrs (step a s).typeBtns = btnAttrs s.typeBtns ∧
    btnAttrs (step a s).tagBtns = btnAttrs s.tagBtns := by
  cases a with
  | typeClick i =>
    show btnAttrs (typeBtnClick i s).typeBtns = _ ∧ btnAttrs (typeBtnClick i s).tagBtns = _
    cases h : s.typeBtns[i]? with
    | none => simp [typeBtnClick, h]
    | some b =>
      simp only [typeBtnClick, h]
      exact ⟨markActive_attrs i s.typeBtns, rfl⟩
  | tagClick i =>
    show btnAttrs (tagBtnClick i s).typeBtns = _ ∧ btnAttrs (tagBtnClick i s).tagBtns = _
    cases h : s.tagBtns[i]? with
    | none => simp [tagBtnClick, h]
    | some b =>
      simp only [tagBtnClick, h]
      exact ⟨rfl, markActive_attrs i s.tagBtns⟩
  | pillClick t =>
    exact ⟨rfl, btnAttrs_map_active (fun b => b.dataTag == t) s.tagBtns⟩
  | clear =>
    show btnAttrs (clearClick s).typeBtns = _ ∧ btnAttrs (clearClick s).tagBtns = _
    cases h : s.clearDisp with
    | none => simp [clearClick, h]
    | some d =>
      simp only [clearClick, h]
      exact ⟨btnAttrs_map_active clearAllPred s.typeBtns,
        btnAttrs_map_active clearAllPred s.tagBtns⟩

/-- One permitted action taken from a state satisfying the UI invariant leads
to a state satisfying it again. -/
theorem step_inv (a : UiAction) (s : St) (hI : FilterInv s)
    (hA : allowed (btnAttrs s.typeBtns) (btnAttrs s.tagBtns) a = true) :
    FilterInv (step a s) := by
  cases a with
  | typeClick i =>
    have hlen : i < s.typeBtns.length := by
      simp only [allowed, btnAttrs, List.length_map, decide_eq_true_eq] at hA
      exact hA
    have hb : s.typeBtns[i]? = some s.typeBtns[i] := List.getElem?_eq_getElem hlen
    show FilterInv (typeBtnClick i s)
    simp only [typeBtnClick, hb]
    refine ⟨⟨markActive_count i s.typeBtns hlen, ?_⟩, hI.2⟩
    intro b' hm ha
    obtain ⟨b0, hb0, h1, _⟩ := markActive_active i s.typeBtns b' hm ha
    rw [hb] at hb0
    rw [h1, Option.some.inj hb0]
    rfl
  | tagClick i =>
    have hlen : i < s.tagBtns.length := by
      simp only [allowed, btnAttrs, List.length_map, decide_eq_true_eq] at hA
      exact hA
    have hb : s.tagBtns[i]? = some s.tagBtns[i] := List.getElem?_eq_getElem hlen
    show FilterInv (tagBtnClick i s)
    simp only [tagBtnClick, hb]
    refine ⟨hI.1, ⟨markActive_count i s.tagBtns hlen, ?_⟩⟩
    intro b' hm ha
    obtain ⟨b0, hb0, _, h2⟩ := markActive_active i s.tagBtns b' hm ha
    rw [hb] at hb0
    rw [h2, Option.some.inj hb0]
    rfl
  | pillClick t =>
    simp only [allowed, btnAttrs, List.countP_map, beq_iff_eq, Function.comp] at hA
    show FilterInv (pubTagClick t s)
    refine ⟨hI.1, ⟨?_, ?_⟩⟩
    · exact (countP_active_map (fun b => b.dataTag == t) s.tagBtns).trans hA
    · intro b' hm ha
      obtain ⟨c, _, rfl⟩ := List.mem_map.mp hm
      exact eq_of_beq ha
  | clear =>
    show FilterInv (clearClick s)
    cases hcd : s.clearDisp with
    | none =>
      have heq : clearClick s = s := by simp [clearClick, hcd]
      rw [heq]
      exact hI
    | some d =>
      simp only [allowed, Bool.and_eq_true, beq_iff_eq, List.all_eq_true] at hA
      obtain ⟨⟨⟨hTc, hTall⟩, hGc⟩, hGall⟩ := hA
      rw [btnAttrs, List.countP_map] at hTc hGc
      simp only [clearClick, hcd]
      refine ⟨⟨?_, ?_⟩, ⟨?_, ?_⟩⟩
      · exact (countP_active_map clearAllPred s.typeBtns).trans hTc
      · intro b' hm ha
        obtain ⟨c, hc, rfl⟩ := List.mem_map.mp hm
        have ha' : attrAllPred (c.dataType, c.dataTag) = true := ha
        have hx := hTall (c.dataType, c.dataTag) (List.mem_map_of_mem _ hc)
        rw [ha'] at hx
        simp only [Bool.not_true, Bool.false_or] at hx
        exact eq_of_beq hx
      · exact (countP_active_map clearAllPred s.tagBtns).trans hGc
      · intro b' hm ha
        obtain ⟨c, hc, rfl⟩ := List.mem_map.mp hm
        have ha' : attrAllPred (c.dataType, c.dataTag) = true := ha
        have hx := hGall (c.dataType, c.dataTag) (List.mem_map_of_mem _ hc)
        rw [ha'] at hx
        simp only [Bool.not_true, Bool.false_or] at hx
        exact eq_of_beq hx

/-- C6: starting from a page satisfying the active-mark invariant (exactly one
control active per group, matching the selection fields), after any finite
sequence of selection actions whose targets respect the markup contract
(`allowed`: clicked buttons exist, a clicked pill's tag value is carried by
exactly one tag control, each group offers exactly one control for the clear
handler to re-activate and it carries the `"all"` value), exactly one type
control and exactly one tag control carry the `"active"` mark and they match
`activeType` and `activeTag` respectively. -/
theorem active_marks_unique (s : St) (acts : List UiAction)
    (hI : FilterInv s)
    (hA : ∀ a ∈ acts, allowed (btnAttrs s.typeBtns) (btnAttrs s.tagBtns) a = true) :
    FilterInv (run acts s) := by
  induction acts generalizing s with
  | nil => exact hI
  | cons a acts ih =>
    have hsa := step_inv a s hI (hA a (List.mem_cons_self a acts))
    have hpres := step_btnAttrs a s
    refine ih (step a s) hsa fun a' ha' => ?_
    rw [hpres.1, hpres.2]
    exact hA a' (List.mem_cons_of_mem a ha')

theorem active_marks_unique_witness :
    FilterInv (run [UiAction.typeClick 1, UiAction.pillClick (some "tiktok"),
      UiAction.tagClick 1, UiAction.clear] demoSt) :=
  active_marks_unique demoSt
    [UiAction.typeClick 1, UiAction.pillClick (some "tiktok"),
      UiAction.tagClick 1, UiAction.clear]
    ⟨⟨by decide, by decide⟩, ⟨by decide, by decide⟩⟩ (by decide)
